import Mathlib

/-!
Verification of the concurrent time-series cache and derived-metrics pipeline
of `web_app.py` (trading dashboard).

The Python source is shallowly embedded: pandas column operations become
operations on Lean lists (`ℚ` for float values, `Option ℚ` for columns in
which the source leaves NaN entries), the cache/refresh code becomes explicit
state-passing functions, and the lock-protected concurrent code becomes
interleaving transition systems whose reachable state spaces are checked
exhaustively.
-/

namespace WebApp

/-! ## Metrics engine: `load_csv_data_from_path`, lines 171–223

The derived columns are computed only when `cumulative_return` is absent and
both `position` and `close` are present.  Each definition below embeds one
pandas statement of that block. -/

/-- `Series.clip(lower=-0.99, upper=1.0)` applied to one value
(lines 188 and 217). -/
def clipReturn (x : ℚ) : ℚ := max (-(99/100)) (min 1 x)

/-- `df['close'].pct_change().fillna(0)` (line 174).  A division by a zero
previous close is represented as 0 here: in the source such an entry becomes
`inf`/NaN and is zeroed by the cleanup of line 183 before it is ever used, so
every downstream column agrees with this embedding (`ℚ` has `x / 0 = 0`). -/
def returns (close : List ℚ) : List ℚ :=
  (List.range close.length).map fun i =>
    if i = 0 then 0
    else (close.getD i 0 - close.getD (i - 1) 0) / close.getD (i - 1) 0

/-- `df['position'].shift(1).fillna(0)` (line 177). -/
def position_lag (pos : List ℚ) : List ℚ :=
  (List.range pos.length).map fun i => if i = 0 then 0 else pos.getD (i - 1) 0

/-- `df['returns'] * df['position_lag']` (line 180) together with the
`replace([inf, -inf], 0).fillna(0)` cleanup of line 183 (already accounted for
in `returns`, see there). -/
def strategy_returns (close pos : List ℚ) : List ℚ :=
  List.zipWith (· * ·) (returns close) (position_lag pos)

/-- Running product: `Series.cumprod()` for an all-numeric series (line 186). -/
def cumprodAux (acc : ℚ) : List ℚ → List ℚ
  | [] => []
  | x :: xs => (acc * x) :: cumprodAux (acc * x) xs

def cumprod (l : List ℚ) : List ℚ := cumprodAux 1 l

/-- `df['cumulative_return']` (lines 186–191): `(1 + strategy_returns).cumprod() - 1`,
clipped to [-0.99, 1.0]; the closing `fillna(0)` is a no-op because the series
is all-numeric after the line-183 cleanup. -/
def cumulative_return (close pos : List ℚ) : List ℚ :=
  (cumprod ((strategy_returns close pos).map fun s => 1 + s)).map fun c =>
    clipReturn (c - 1)

/-- `df['position_change'] = df['position'].diff()` (line 203): NaN (`none`)
at row 0. -/
def position_change (pos : List ℚ) : List (Option ℚ) :=
  (List.range pos.length).map fun i =>
    if i = 0 then none else some (pos.getD i 0 - pos.getD (i - 1) 0)

/-- `df['is_trade'] = df['position_change'] != 0` (line 204).  In pandas
`NaN != 0` evaluates to `True`, so row 0 is flagged as a trade. -/
def is_trade (pos : List ℚ) : List Bool :=
  (position_change pos).map fun d =>
    match d with
    | none => true
    | some q => decide (q ≠ 0)

/-- `fee_multiplier` (lines 208–209): initialized to 0.0 and then assigned
`(fee_percent / 100) * position_change_abs` on the rows flagged `is_trade`.
Row 0 is flagged (see `is_trade`) and its `position_change_abs` is NaN, so the
assigned value is NaN (`none`). -/
def fee_multiplier (pos : List ℚ) (fee_percent : ℚ) : List (Option ℚ) :=
  (position_change pos).map fun d =>
    match d with
    | none => none
    | some q => if q ≠ 0 then some (fee_percent / 100 * |q|) else some 0

/-- `df['transaction_cost'] = df['fee_multiplier']` (line 221). -/
def transaction_cost (pos : List ℚ) (fee_percent : ℚ) : List (Option ℚ) :=
  fee_multiplier pos fee_percent

/-- `df['strategy_returns_after_fees'] = df['strategy_returns'] - df['fee_multiplier']`
(line 212); subtraction with a NaN operand yields NaN. -/
def strategy_returns_after_fees (close pos : List ℚ) (fee_percent : ℚ) :
    List (Option ℚ) :=
  List.zipWith (fun s f => f.map fun q => s - q)
    (strategy_returns close pos) (fee_multiplier pos fee_percent)

/-- `Series.cumprod()` with pandas' default `skipna=True`: a NaN entry stays
NaN in the output and the running product carries past it unchanged. -/
def cumprodSkipnaAux (acc : ℚ) : List (Option ℚ) → List (Option ℚ)
  | [] => []
  | none :: xs => none :: cumprodSkipnaAux acc xs
  | some x :: xs => some (acc * x) :: cumprodSkipnaAux (acc * x) xs

def cumprodSkipna (l : List (Option ℚ)) : List (Option ℚ) := cumprodSkipnaAux 1 l

/-- `df['cumulative_return_after_fees']` (lines 215–218): cumprod of
`1 + strategy_returns_after_fees` (NaN-skipping), minus 1, clipped to
[-0.99, 1.0], then `fillna(0)`. -/
def cumulative_return_after_fees (close pos : List ℚ) (fee_percent : ℚ) :
    List ℚ :=
  (((cumprodSkipna ((strategy_returns_after_fees close pos fee_percent).map
        (Option.map fun s => 1 + s))).map
      (Option.map fun c => clipReturn (c - 1))).map fun o => o.getD 0)

theorem clipReturn_mem_Icc (x : ℚ) : -(99/100) ≤ clipReturn x ∧ clipReturn x ≤ 1 := by
  constructor
  · exact le_max_left _ _
  · apply max_le
    · norm_num
    · exact min_le_left _ _

/-- Pointwise description of the `transaction_cost` column at a row `i ≥ 1`. -/
theorem transaction_cost_get (pos : List ℚ) (fee_percent : ℚ) (i : ℕ)
    (h1 : 1 ≤ i) (h2 : i < pos.length) :
    (transaction_cost pos fee_percent).get? i =
      some (if pos.getD i 0 - pos.getD (i - 1) 0 ≠ 0
            then some (fee_percent / 100 * |pos.getD i 0 - pos.getD (i - 1) 0|)
            else some 0) := by
  unfold transaction_cost fee_multiplier position_change
  rw [List.get?_map, List.get?_map, List.get?_range h2]
  have hi0 : i ≠ 0 := by omega
  simp [hi0]

/-- Pointwise description of `strategy_returns` (needs both columns to reach
row `i`, as in a dataframe where all columns share the row count). -/
theorem strategy_returns_get (close pos : List ℚ) (i : ℕ)
    (hlen : close.length = pos.length) (h1 : 1 ≤ i) (h2 : i < pos.length) :
    (strategy_returns close pos).get? i =
      some ((close.getD i 0 - close.getD (i - 1) 0) / close.getD (i - 1) 0 *
            pos.getD (i - 1) 0) := by
  unfold strategy_returns returns position_lag
  rw [List.get?_zipWith', List.get?_map, List.get?_map,
    List.get?_range (by omega : i < close.length), List.get?_range h2]
  have hi0 : i ≠ 0 := by omega
  simp [hi0]

/-- **C1**: whenever the metrics engine computes the derived columns, every
sample's `cumulative_return` and `cumulative_return_after_fees` value lies in
the closed interval [-0.99, 1.00] (the `clip` of lines 188/217 followed by
`fillna(0)` leaves only clipped values and zeros). -/
theorem cumulative_return_clamped (close pos : List ℚ) (fee_percent : ℚ) :
    (∀ x ∈ cumulative_return close pos, -(99/100) ≤ x ∧ x ≤ 1) ∧
    (∀ x ∈ cumulative_return_after_fees close pos fee_percent,
      -(99/100) ≤ x ∧ x ≤ 1) := by
  constructor
  · intro x hx
    unfold cumulative_return at hx
    rcases List.mem_map.mp hx with ⟨c, _, rfl⟩
    exact clipReturn_mem_Icc _
  · intro x hx
    unfold cumulative_return_after_fees at hx
    rcases List.mem_map.mp hx with ⟨o, ho, rfl⟩
    rcases List.mem_map.mp ho with ⟨o', _, rfl⟩
    cases o' with
    | none => norm_num
    | some c => simpa using clipReturn_mem_Icc (c - 1)

/-- Concrete evaluation of the cumulative-return pipeline on the two-sample
series `close = [1, 2]`, `position = [1, 1]`. -/
theorem cumulative_return_example : cumulative_return [1, 2] [1, 1] = [0, 1] := by
  norm_num [cumulative_return, strategy_returns, returns, position_lag,
    List.range_succ, cumprod, cumprodAux, clipReturn]

/-- Concrete evaluation of the after-fees pipeline on the same series with a
zero fee: row 0 is NaN before the final `fillna(0)`, so the output is `[0, 1]`. -/
theorem cumulative_return_after_fees_example :
    cumulative_return_after_fees [1, 2] [1, 1] 0 = [0, 1] := by
  norm_num [cumulative_return_after_fees, strategy_returns_after_fees,
    fee_multiplier, position_change, strategy_returns, returns, position_lag,
    List.range_succ, cumprodSkipna, cumprodSkipnaAux, clipReturn]

/-- Witness for C1 at the concrete series `close = [1, 2]`, `position = [1, 1]`:
the computed samples `1` (cumulative) and `0` (after fees, first row) are in
range. -/
theorem cumulative_return_clamped_witness :
    (-(99/100 : ℚ) ≤ 1 ∧ (1 : ℚ) ≤ 1) ∧ (-(99/100 : ℚ) ≤ 0 ∧ (0 : ℚ) ≤ 1) :=
  ⟨(cumulative_return_clamped [1, 2] [1, 1] 0).1 1
      (by rw [cumulative_return_example]; simp),
   (cumulative_return_clamped [1, 2] [1, 1] 0).2 0
      (by rw [cumulative_return_after_fees_example]; simp)⟩

/-- **C3, counterexample**: for the two-sample series with constant position
`[0, 0]` (no position changes) and the default fee 0.05, the claim demands
`transaction_cost = 0` at every sample and
`strategy_returns = strategy_returns_after_fees` at every sample; but row 0 of
`transaction_cost` is NaN (`position.diff()` is NaN there, `NaN != 0` is `True`
in pandas, so the row is flagged a trade and assigned `fee * NaN = NaN`), and
consequently `strategy_returns_after_fees` is NaN at row 0 as well. -/
theorem transaction_cost_nan_example :
    transaction_cost [0, 0] (5/100) = [none, some 0] := by
  norm_num [transaction_cost, fee_multiplier, position_change, List.range_succ]

theorem strategy_returns_after_fees_nan_example :
    strategy_returns_after_fees [1, 1] [0, 0] (5/100) = [none, some 0] := by
  norm_num [strategy_returns_after_fees, fee_multiplier, position_change,
    strategy_returns, returns, position_lag, List.range_succ]

theorem strategy_returns_flat_example :
    strategy_returns [1, 1] [0, 0] = [0, 0] := by
  norm_num [strategy_returns, returns, position_lag, List.range_succ]

theorem transaction_cost_counterexample :
    (¬ ∀ x ∈ transaction_cost [0, 0] (5/100), x = some 0) ∧
    strategy_returns_after_fees [1, 1] [0, 0] (5/100) ≠
      (strategy_returns [1, 1] [0, 0]).map some := by
  constructor
  · intro h
    have h0 := h none (by rw [transaction_cost_nan_example]; simp)
    simp at h0
  · intro h
    rw [strategy_returns_after_fees_nan_example, strategy_returns_flat_example] at h
    simp at h

/-- **C3, amended**: for every row `i ≥ 1` (row 0's `transaction_cost` is NaN,
see the counterexample) and nonnegative fee percentage, `transaction_cost` is a
nonnegative number and is nonzero only when the position changed from the
previous sample; and on a series with no position changes, `transaction_cost`
is 0 and `strategy_returns_after_fees` agrees with `strategy_returns` at every
row `i ≥ 1`. -/
theorem transaction_cost_amended (close pos : List ℚ) (fee_percent : ℚ)
    (hfee : 0 ≤ fee_percent) (hlen : close.length = pos.length) :
    (∀ i, 1 ≤ i → i < pos.length →
      ∃ q, (transaction_cost pos fee_percent).get? i = some (some q) ∧ 0 ≤ q ∧
        (q ≠ 0 → pos.getD i 0 ≠ pos.getD (i - 1) 0)) ∧
    ((∀ i < pos.length, pos.getD i 0 = pos.getD 0 0) →
      ∀ i, 1 ≤ i → i < pos.length →
        (transaction_cost pos fee_percent).get? i = some (some 0) ∧
        (strategy_returns_after_fees close pos fee_percent).get? i =
          some (some ((strategy_returns close pos).getD i 0))) := by
  constructor
  · intro i h1 h2
    rw [transaction_cost_get pos fee_percent i h1 h2]
    by_cases hd : pos.getD i 0 - pos.getD (i - 1) 0 = 0
    · exact ⟨0, by rw [if_neg (not_not_intro hd)], le_refl 0, fun h => absurd rfl h⟩
    · refine ⟨fee_percent / 100 * |pos.getD i 0 - pos.getD (i - 1) 0|, ?_, ?_, ?_⟩
      · rw [if_pos hd]
      · exact mul_nonneg (by positivity) (abs_nonneg _)
      · intro _
        exact sub_ne_zero.mp hd
  · intro hconst i h1 h2
    have hd : pos.getD i 0 - pos.getD (i - 1) 0 = 0 := by
      rw [hconst i h2, hconst (i - 1) (by omega)]
      ring
    have htc : (transaction_cost pos fee_percent).get? i = some (some 0) := by
      rw [transaction_cost_get pos fee_percent i h1 h2]
      rw [if_neg (not_not_intro hd)]
    refine ⟨htc, ?_⟩
    have hsr := strategy_returns_get close pos i hlen h1 h2
    unfold strategy_returns_after_fees
    rw [List.get?_zipWith']
    have hfm : (fee_multiplier pos fee_percent).get? i = some (some 0) := htc
    rw [hfm, hsr, List.getD_eq_getD_get? (strategy_returns close pos) 0 i, hsr]
    simp

/-- Witness for C3 (amended) at `position = [0, 0]`, fee 0.05, row 1. -/
theorem transaction_cost_amended_witness :
    ∃ q, (transaction_cost [0, 0] (5/100)).get? 1 = some (some q) ∧ 0 ≤ q ∧
      (q ≠ 0 →
        ([0, 0] : List ℚ).getD 1 0 ≠ ([0, 0] : List ℚ).getD (1 - 1) 0) :=
  (transaction_cost_amended [1, 1] [0, 0] (5/100) (by norm_num) rfl).1 1
    (le_refl 1) (by simp)

/-! ## Dataframe record and the derived-column guard (C4) -/

/-- `df['position_change_abs'] = df['position_change'].abs()` (line 205). -/
def position_change_abs (pos : List ℚ) : List (Option ℚ) :=
  (position_change pos).map (Option.map abs)

/-- A loaded dataframe, as a record of optional columns (`none` = the column is
absent).  `timestamp` holds seconds since the epoch; columns that can carry NaN
entries are lists of `Option ℚ`. -/
structure Frame where
  timestamp : List ℕ
  close : Option (List ℚ) := none
  position : Option (List ℚ) := none
  returns : Option (List ℚ) := none
  position_lag : Option (List ℚ) := none
  strategy_returns : Option (List ℚ) := none
  cumulative_return : Option (List ℚ) := none
  position_change : Option (List (Option ℚ)) := none
  is_trade : Option (List Bool) := none
  position_change_abs : Option (List (Option ℚ)) := none
  fee_multiplier : Option (List (Option ℚ)) := none
  strategy_returns_after_fees : Option (List (Option ℚ)) := none
  cumulative_return_after_fees : Option (List ℚ) := none
  transaction_cost : Option (List (Option ℚ)) := none
deriving DecidableEq

/-- Lines 171–223 of `load_csv_data_from_path`: the whole derived-column block,
guarded by `'cumulative_return' not in df.columns and 'position' in df.columns
and 'close' in df.columns` (line 172).  All intermediate columns the block
assigns to `df` (they are never dropped in the source) are recorded. -/
def computeDerived (fee_percent : ℚ) (f : Frame) : Frame :=
  match f.cumulative_return, f.position, f.close with
  | none, some pos, some close =>
      { f with
        returns := some (WebApp.returns close)
        position_lag := some (WebApp.position_lag pos)
        strategy_returns := some (WebApp.strategy_returns close pos)
        cumulative_return := some (WebApp.cumulative_return close pos)
        position_change := some (WebApp.position_change pos)
        is_trade := some (WebApp.is_trade pos)
        position_change_abs := some (WebApp.position_change_abs pos)
        fee_multiplier := some (WebApp.fee_multiplier pos fee_percent)
        strategy_returns_after_fees :=
          some (WebApp.strategy_returns_after_fees close pos fee_percent)
        cumulative_return_after_fees :=
          some (WebApp.cumulative_return_after_fees close pos fee_percent)
        transaction_cost := some (WebApp.transaction_cost pos fee_percent) }
  | _, _, _ => f

/-- `computeDerived` either leaves the frame unchanged or produces a frame that
carries a `cumulative_return` column. -/
theorem computeDerived_cases (fee_percent : ℚ) (f : Frame) :
    computeDerived fee_percent f = f ∨
      (computeDerived fee_percent f).cumulative_return ≠ none := by
  unfold computeDerived
  split
  · right
    simp
  · left
    rfl

/-- **C4**: the metrics engine is a no-op on a frame that already carries the
derived columns (the guard of line 172 skips the block when
`cumulative_return` is present), and hence is idempotent: computing derived
columns twice gives the same frame, every column included, as computing them
once. -/
theorem computeDerived_idempotent (fee_percent : ℚ) :
    (∀ f : Frame, ∀ c, f.cumulative_return = some c →
      computeDerived fee_percent f = f) ∧
    (∀ f : Frame, computeDerived fee_percent (computeDerived fee_percent f) =
      computeDerived fee_percent f) := by
  have hskip : ∀ f : Frame, ∀ c, f.cumulative_return = some c →
      computeDerived fee_percent f = f := by
    intro f c hc
    unfold computeDerived
    split
    · simp_all
    · rfl
  refine ⟨hskip, fun f => ?_⟩
  rcases computeDerived_cases fee_percent f with h | h
  · rw [h]
    exact h
  · rcases ho : (computeDerived fee_percent f).cumulative_return with _ | c
    · exact absurd ho h
    · exact hskip _ c ho

/-- A frame that already carries a `cumulative_return` column. -/
def frameWithDerived : Frame :=
  { timestamp := [0], close := some [1], position := some [0],
    cumulative_return := some [0] }

/-- Witness for C4: on a concrete frame that already carries
`cumulative_return`, the engine leaves the frame unchanged. -/
theorem computeDerived_idempotent_witness :
    computeDerived (5/100) frameWithDerived = frameWithDerived :=
  (computeDerived_idempotent (5/100)).1 frameWithDerived [0] rfl

/-! ## Cache refresh for an already-cached key (C5) -/

/-- `df.empty` for a loaded dataframe: `load_csv_data_from_path` returns a
bare `pd.DataFrame()` (no rows at all) on a missing/unreadable file. -/
def Frame.empty (f : Frame) : Bool := f.timestamp.isEmpty

/-- Outcome of one cache-refresh attempt for an already-cached key:
the cached entry, the stored mtime (`LAST_MODIFIED[cache_key]`), the
`data_version` counter, whether `load_csv_data_from_path` was invoked, and
whether an error response was produced. -/
structure RefreshResult where
  entry : Frame
  last_modified : ℕ
  data_version : ℕ
  loader_ran : Bool
  error_response : Bool
deriving DecidableEq

/-- Lines 976–985 of `get_bucket_data` (the key is already cached, so the
`else` branch runs), which is also the per-key logic of `refresh_data_cache`
(lines 263–275, where the stored mtime defaults to 0 via
`LAST_MODIFIED.get(cache_key, 0)`): reload only when the freshly observed
mtime is strictly newer; `loaded` is what `load_csv_data_from_path` returns
when invoked; an empty reload leaves everything untouched (`if not df.empty:`
has no else branch) and neither branch produces an error response. -/
def refreshCachedEntry (df : Frame) (stored current_mtime data_version : ℕ)
    (loaded : Frame) : RefreshResult :=
  if current_mtime > stored then
    if loaded.empty then
      { entry := df, last_modified := stored, data_version := data_version,
        loader_ran := true, error_response := false }
    else
      { entry := loaded, last_modified := current_mtime,
        data_version := data_version + 1, loader_ran := true,
        error_response := false }
  else
    { entry := df, last_modified := stored, data_version := data_version,
      loader_ran := false, error_response := false }

/-- **C5**: for a cached key, the loader runs exactly when the observed source
mtime is strictly newer than the stored one; an empty loader result leaves the
cached entry, the stored mtime and the version unchanged and produces no error
response; and no branch of the refresh produces an error response at all. -/
theorem refreshCachedEntry_spec (df : Frame) (stored current_mtime data_version : ℕ)
    (loaded : Frame) :
    ((refreshCachedEntry df stored current_mtime data_version loaded).loader_ran =
        true ↔ stored < current_mtime) ∧
    (loaded.empty = true →
      refreshCachedEntry df stored current_mtime data_version loaded =
        { entry := df, last_modified := stored, data_version := data_version,
          loader_ran := decide (stored < current_mtime),
          error_response := false }) ∧
    (refreshCachedEntry df stored current_mtime data_version loaded).error_response =
      false := by
  unfold refreshCachedEntry
  refine ⟨?_, ?_, ?_⟩
  · split
    · split <;> simpa using by assumption
    · simp_all
  · intro hempty
    split
    · rename_i hlt
      simp [hempty, hlt]
    · rename_i hlt
      simp [decide_eq_false hlt]
  · split
    · split <;> rfl
    · rfl

/-- An empty loader result (a bare `pd.DataFrame()`). -/
def emptyFrame : Frame := { timestamp := [] }

/-- A nonempty cached frame. -/
def cachedFrame : Frame := { timestamp := [0], close := some [1] }

/-- Witness for C5: a stale cached entry (stored mtime 1, observed mtime 2)
whose reload comes back empty is left fully unchanged, with no error. -/
theorem refreshCachedEntry_spec_witness :
    refreshCachedEntry cachedFrame 1 2 7 emptyFrame =
      { entry := cachedFrame, last_modified := 1, data_version := 7,
        loader_ran := decide (1 < 2), error_response := false } :=
  (refreshCachedEntry_spec cachedFrame 1 2 7 emptyFrame).2.1 rfl

/-! ## Incremental differ: `get_bucket_data_since`, lines 1024–1098 (C6, C10) -/

/-- One sample row of a cached series, as read by the incremental endpoint. -/
structure Row where
  ts : ℕ
  close : ℚ
  position : ℚ
  cumulative_return : ℚ
deriving DecidableEq

/-- `df[df['timestamp'] > last_dt]` (line 1080). -/
def sinceFilter (rows : List Row) (watermark : ℕ) : List Row :=
  rows.filter fun r => decide (watermark < r.ts)

/-- The possible responses of the incremental endpoint: HTTP 404 (line 1073),
`{'new_data': False}` (line 1083), the incremental payload (lines 1086–1094),
and the HTTP 500 of the `except` branch (line 1098). -/
inductive SinceResp where
  | notFound
  | noNew
  | payload (rows : List Row)
  | error
deriving DecidableEq

/-- `get_bucket_data_since` after cache-key resolution (lines 1072–1098):
`cache` is `DATA_CACHE`, `disk` represents the source CSV files on disk
(the route only reads disk metadata to resolve the cache key, which is taken
as already resolved here — it has no `load_csv_data_from_path` call, so `disk`
is never consulted), and `watermark` is the parsed `last_timestamp` path
parameter (`none` models an unparsable timestamp, which the `except` branch
turns into an HTTP 500).  The second component is `DATA_CACHE` after the
request: this endpoint never writes the cache, so it is the input cache in
every branch. -/
def get_bucket_data_since (cache : List (String × List Row))
    (disk : List (String × List Row)) (key : String) (watermark : Option ℕ) :
    SinceResp × List (String × List Row) :=
  match cache.lookup key with
  | none => (.notFound, cache)
  | some df =>
      match watermark with
      | none => (.error, cache)
      | some w =>
          let new_data := sinceFilter df w
          if new_data.length = 0 then (.noNew, cache)
          else (.payload new_data, cache)

/-- In a series sorted by timestamp, every row's timestamp is bounded by the
last row's. -/
theorem ts_le_getLast (rows : List Row)
    (hsorted : rows.Pairwise fun a b => a.ts ≤ b.ts) (last : Row)
    (hl : rows.getLast? = some last) : ∀ r ∈ rows, r.ts ≤ last.ts := by
  induction rows with
  | nil => simp at hl
  | cons a t ih =>
    intro r hr
    cases t with
    | nil =>
      simp at hl
      rcases List.mem_singleton.mp hr with rfl
      rw [hl]
    | cons b u =>
      rw [List.getLast?_cons_cons] at hl
      have hlast_mem : last ∈ b :: u := List.mem_of_mem_getLast? hl
      rcases List.mem_cons.mp hr with rfl | hr
      · exact (List.pairwise_cons.mp hsorted).1 last hlast_mem
      · exact ih (List.pairwise_cons.mp hsorted).2 hl r hr

/-- For a series sorted by timestamp, the strict filter keeps a suffix of the
series. -/
theorem sinceFilter_isSuffix (w : ℕ) :
    ∀ rows : List Row, (rows.Pairwise fun a b => a.ts ≤ b.ts) →
      (sinceFilter rows w) <:+ rows := by
  intro rows
  induction rows with
  | nil =>
    intro _
    simp [sinceFilter]
  | cons a t ih =>
    intro hsorted
    by_cases hw : w < a.ts
    · have hall : ∀ r ∈ a :: t, decide (w < r.ts) = true := by
        intro r hr
        rcases List.mem_cons.mp hr with rfl | hr
        · exact decide_eq_true hw
        · exact decide_eq_true
            (lt_of_lt_of_le hw ((List.pairwise_cons.mp hsorted).1 r hr))
      rw [show sinceFilter (a :: t) w = a :: t from List.filter_eq_self.mpr hall]
    · have hstep : sinceFilter (a :: t) w = sinceFilter t w := by
        simp only [sinceFilter, List.filter_cons, decide_eq_true_eq]
        rw [if_neg (by simpa using hw)]
      rw [hstep]
      exact (ih (List.pairwise_cons.mp hsorted).2).trans (List.suffix_cons a t)

/-- **C6**: the incremental endpoint returns exactly the samples with
timestamp strictly greater than the watermark — for a sorted series, exactly
the suffix of the cached series with `ts > watermark` — and when no such
samples exist (in particular when the watermark equals the last sample's
timestamp) it answers `hasNew = false` with an empty payload, not an error. -/
theorem since_exact_suffix (cache disk : List (String × List Row)) (key : String)
    (rows : List Row) (w : ℕ) (hlook : cache.lookup key = some rows)
    (hsorted : rows.Pairwise fun a b => a.ts ≤ b.ts) :
    (∀ r, r ∈ sinceFilter rows w ↔ r ∈ rows ∧ w < r.ts) ∧
    (sinceFilter rows w) <:+ rows ∧
    (sinceFilter rows w ≠ [] →
      (get_bucket_data_since cache disk key (some w)).1 =
        .payload (sinceFilter rows w)) ∧
    (sinceFilter rows w = [] →
      (get_bucket_data_since cache disk key (some w)).1 = .noNew) ∧
    (∀ last, rows.getLast? = some last →
      (get_bucket_data_since cache disk key (some last.ts)).1 = .noNew) := by
  refine ⟨?_, sinceFilter_isSuffix w rows hsorted, ?_, ?_, ?_⟩
  · intro r
    simp [sinceFilter, List.mem_filter]
  · intro hne
    unfold get_bucket_data_since
    rw [hlook]
    simp [List.length_eq_zero, hne]
  · intro hempty
    unfold get_bucket_data_since
    rw [hlook]
    simp [List.length_eq_zero, hempty]
  · intro last hl
    have hempty : sinceFilter rows last.ts = [] := by
      unfold sinceFilter
      rw [List.filter_eq_nil]
      intro r hr
      simpa using not_lt_of_le (ts_le_getLast rows hsorted last hl r hr)
    unfold get_bucket_data_since
    rw [hlook]
    simp [List.length_eq_zero, hempty]

/-- A two-sample cached series. -/
def demoRows : List Row := [⟨1, 1, 0, 0⟩, ⟨2, 1, 0, 0⟩]

/-- A one-entry cache holding `demoRows`. -/
def demoCache : List (String × List Row) := [("bucketA/TS-1", demoRows)]

/-- Witness for C6: with the watermark equal to the last sample's timestamp,
the endpoint answers `hasNew = false`. -/
theorem since_exact_suffix_witness :
    (get_bucket_data_since demoCache [] "bucketA/TS-1" (some 2)).1 = .noNew :=
  (since_exact_suffix demoCache [] "bucketA/TS-1" demoRows 1
      (by simp [demoCache, List.lookup]) (by decide)).2.2.2.2
    ⟨2, 1, 0, 0⟩ (by decide)

/-- **C10**: when the resolved cache key has no entry in `DATA_CACHE`, the
incremental endpoint answers 404 (`notFound`) for every watermark and every
state of the disk — even one holding a matching source file — and leaves the
cache unchanged: nothing is loaded or cached on this path. -/
theorem since_notFound (cache disk : List (String × List Row)) (key : String)
    (watermark : Option ℕ) (h : cache.lookup key = none) :
    get_bucket_data_since cache disk key watermark = (.notFound, cache) := by
  unfold get_bucket_data_since
  rw [h]

/-- Witness for C10: an empty cache, with the requested series present on
disk, still yields 404 and an unchanged (empty) cache. -/
theorem since_notFound_witness :
    get_bucket_data_since [] demoCache "bucketA/TS-1" (some 0) =
      (.notFound, []) :=
  since_notFound [] demoCache "bucketA/TS-1" (some 0) rfl

/-! ## Resampler: `get_resampled_data`, lines 317–372 (C7) -/

/-- Lines 328–338: the auto-selection ladder ('1h', '30min', '15min', '5min'),
expressed in seconds; `none` means "no resampling needed". -/
def autoPeriod (total_rows : ℕ) : Option ℕ :=
  if total_rows > 50000 then some 3600
  else if total_rows > 20000 then some 1800
  else if total_rows > 10000 then some 900
  else if total_rows > 5000 then some 300
  else none

/-- `df.resample(period).agg({...: 'last'}).dropna().reset_index()`
(lines 340–369) for a series sorted by timestamp: rows are binned by flooring
the timestamp to a multiple of the period (every period used divides one day,
so pandas' bins are epoch-aligned), the `'last'` row of each bin survives,
empty bins are dropped by `dropna()`, and the output row carries the bin
boundary as its timestamp (`reset_index`).  The payload `α` stands for the
aggregated columns (close, position, cumulative returns). -/
def resampleLast {α : Type} (p : ℕ) : List (ℕ × α) → List (ℕ × α)
  | [] => []
  | [(t, a)] => [(p * (t / p), a)]
  | (t, a) :: (u, b) :: rest =>
      if t / p = u / p then resampleLast p ((u, b) :: rest)
      else (p * (t / p), a) :: resampleLast p ((u, b) :: rest)

/-- `get_resampled_data` (lines 317–372): empty in, empty out (line 322); an
explicit period resamples; otherwise the ladder decides, and a small series is
returned unchanged (line 338). -/
def get_resampled_data {α : Type} (rows : List (ℕ × α))
    (resample_period : Option ℕ) : List (ℕ × α) :=
  if rows.isEmpty then rows
  else
    match resample_period with
    | some p => resampleLast p rows
    | none =>
        match autoPeriod rows.length with
        | some p => resampleLast p rows
        | none => rows

theorem resampleLast_length_le {α : Type} (p : ℕ) :
    ∀ l : List (ℕ × α), (resampleLast p l).length ≤ l.length
  | [] => le_refl 0
  | [(t, a)] => le_refl 1
  | (t, a) :: (u, b) :: rest => by
      rw [resampleLast]
      split
      · exact le_trans (resampleLast_length_le p ((u, b) :: rest)) (by simp)
      · simpa using resampleLast_length_le p ((u, b) :: rest)

/-- Every resampled row is a row of the input with its timestamp floored to a
bin boundary. -/
theorem resampleLast_mem {α : Type} (p : ℕ) :
    ∀ l : List (ℕ × α), ∀ s ∈ resampleLast p l,
      ∃ q ∈ l, s = (p * (q.1 / p), q.2)
  | [] => by simp [resampleLast]
  | [(t, a)] => by simp [resampleLast]
  | (t, a) :: (u, b) :: rest => by
      intro s hs
      rw [resampleLast] at hs
      split at hs
      · rcases resampleLast_mem p ((u, b) :: rest) s hs with ⟨q, hq, rfl⟩
        exact ⟨q, List.mem_cons_of_mem _ hq, rfl⟩
      · rcases List.mem_cons.mp hs with rfl | hs
        · exact ⟨(t, a), List.mem_cons_self _ _, rfl⟩
        · rcases resampleLast_mem p ((u, b) :: rest) s hs with ⟨q, hq, rfl⟩
          exact ⟨q, List.mem_cons_of_mem _ hq, rfl⟩

/-- On a series sorted by timestamp, the resampled timestamps are strictly
increasing (each surviving row is the last of its bin, and bins advance). -/
theorem resampleLast_pairwise {α : Type} (p : ℕ) (hp : 0 < p) :
    ∀ l : List (ℕ × α), (l.Pairwise fun x y => x.1 ≤ y.1) →
      ((resampleLast p l).Pairwise fun x y => x.1 < y.1)
  | [] => by simp [resampleLast]
  | [(t, a)] => by simp [resampleLast]
  | (t, a) :: (u, b) :: rest => by
      intro hsorted
      have htail : ((u, b) :: rest).Pairwise fun x y : ℕ × α => x.1 ≤ y.1 :=
        (List.pairwise_cons.mp hsorted).2
      have htu : t ≤ u := (List.pairwise_cons.mp hsorted).1 (u, b) (by simp)
      rw [resampleLast]
      split
      · exact resampleLast_pairwise p hp ((u, b) :: rest) htail
      · rename_i hne
        refine List.pairwise_cons.mpr ⟨?_, resampleLast_pairwise p hp ((u, b) :: rest) htail⟩
        intro s hs
        rcases resampleLast_mem p ((u, b) :: rest) s hs with ⟨q, hq, rfl⟩
        have huq : u ≤ q.1 := by
          rcases List.mem_cons.mp hq with h | h
          · rw [h]
          · exact (List.pairwise_cons.mp htail).1 q h
        have hdiv : t / p < q.1 / p :=
          lt_of_lt_of_le (lt_of_le_of_ne (Nat.div_le_div_right htu) hne)
            (Nat.div_le_div_right huq)
        exact Nat.mul_lt_mul_of_pos_left hdiv hp

/-- A strictly increasing list of naturals all below `N` has at most `N`
elements. -/
theorem length_le_of_pairwise_lt (l : List ℕ) (N : ℕ)
    (h : l.Pairwise (· < ·)) (hb : ∀ x ∈ l, x < N) : l.length ≤ N := by
  have hnd : l.Nodup := h.imp ne_of_lt
  calc l.length = l.toFinset.card := (List.toFinset_card_of_nodup hnd).symm
    _ ≤ (Finset.range N).card := by
        apply Finset.card_le_card
        intro x hx
        exact Finset.mem_range.mpr (hb x (List.mem_toFinset.mp hx))
    _ = N := Finset.card_range N

/-- Every period produced by the ladder is positive. -/
theorem autoPeriod_pos (n p : ℕ) (h : autoPeriod n = some p) : 0 < p := by
  unfold autoPeriod at h
  split_ifs at h <;> simp_all <;> omega

/-- A series of `n` one-minute samples (timestamps in seconds). -/
def minuteSeries (n : ℕ) : List (ℕ × Unit) :=
  (List.range n).map fun i => (60 * i, ())

theorem minuteSeries_length (n : ℕ) : (minuteSeries n).length = n := by
  simp [minuteSeries]

theorem minuteSeries_sorted (n : ℕ) :
    (minuteSeries n).Pairwise fun x y => x.1 ≤ y.1 := by
  unfold minuteSeries
  rw [List.pairwise_map]
  exact (List.pairwise_lt_range n).imp fun h => by
    simpa using Nat.mul_le_mul_left 60 (le_of_lt h)

/-- **C7**: with no explicit period the resampler follows the fixed ladder
(>50000 samples → 1 hour, >20000 → 30 min, >10000 → 15 min, >5000 → 5 min,
otherwise the series is returned unchanged); the output timestamps are
non-decreasing, the output never has more rows than the input, and 60000
one-minute samples auto-select the 1-hour width and give at most 1000
buckets. -/
theorem resampler_spec :
    (∀ n : ℕ,
      (50000 < n → autoPeriod n = some 3600) ∧
      (20000 < n → n ≤ 50000 → autoPeriod n = some 1800) ∧
      (10000 < n → n ≤ 20000 → autoPeriod n = some 900) ∧
      (5000 < n → n ≤ 10000 → autoPeriod n = some 300) ∧
      (n ≤ 5000 → autoPeriod n = none)) ∧
    (∀ (α : Type) (rows : List (ℕ × α)), rows.length ≤ 5000 →
      get_resampled_data rows none = rows) ∧
    (∀ (α : Type) (rows : List (ℕ × α)) (per : Option ℕ),
      (rows.Pairwise fun x y => x.1 ≤ y.1) → (∀ q, per = some q → 0 < q) →
      ((get_resampled_data rows per).Pairwise fun x y => x.1 ≤ y.1)) ∧
    (∀ (α : Type) (rows : List (ℕ × α)) (per : Option ℕ),
      (get_resampled_data rows per).length ≤ rows.length) ∧
    (autoPeriod (minuteSeries 60000).length = some 3600 ∧
      (get_resampled_data (minuteSeries 60000) none).length ≤ 1000) := by
  have hladder : ∀ n : ℕ,
      (50000 < n → autoPeriod n = some 3600) ∧
      (20000 < n → n ≤ 50000 → autoPeriod n = some 1800) ∧
      (10000 < n → n ≤ 20000 → autoPeriod n = some 900) ∧
      (5000 < n → n ≤ 10000 → autoPeriod n = some 300) ∧
      (n ≤ 5000 → autoPeriod n = none) := by
    intro n
    unfold autoPeriod
    refine ⟨fun h => ?_, fun h h' => ?_, fun h h' => ?_, fun h h' => ?_, fun h => ?_⟩ <;>
      split_ifs <;> first | rfl | omega
  have hsorted : ∀ (α : Type) (rows : List (ℕ × α)) (per : Option ℕ),
      (rows.Pairwise fun x y => x.1 ≤ y.1) → (∀ q, per = some q → 0 < q) →
      ((get_resampled_data rows per).Pairwise fun x y => x.1 ≤ y.1) := by
    intro α rows per hrows hper
    unfold get_resampled_data
    split
    · exact hrows
    · match per with
      | some p =>
        exact (resampleLast_pairwise p (hper p rfl) rows hrows).imp
          fun h => le_of_lt h
      | none =>
        match hap : autoPeriod rows.length with
        | some p =>
          exact (resampleLast_pairwise p (autoPeriod_pos _ p hap) rows hrows).imp
            fun h => le_of_lt h
        | none => exact hrows
  have hlength : ∀ (α : Type) (rows : List (ℕ × α)) (per : Option ℕ),
      (get_resampled_data rows per).length ≤ rows.length := by
    intro α rows per
    unfold get_resampled_data
    split
    · exact le_refl _
    · match per with
      | some p => exact resampleLast_length_le p rows
      | none =>
        match autoPeriod rows.length with
        | some p => exact resampleLast_length_le p rows
        | none => exact le_refl _
  refine ⟨hladder, ?_, hsorted, hlength, ?_, ?_⟩
  · intro α rows hsmall
    unfold get_resampled_data
    split
    · rfl
    · rw [(hladder rows.length).2.2.2.2 hsmall]
  · rw [minuteSeries_length]
    norm_num [autoPeriod]
  · have hne : minuteSeries 60000 ≠ [] := by
      intro h
      have := congrArg List.length h
      rw [minuteSeries_length] at this
      simp at this
    have hform : get_resampled_data (minuteSeries 60000) none =
        resampleLast 3600 (minuteSeries 60000) := by
      unfold get_resampled_data
      rw [if_neg (by simpa [List.isEmpty_iff] using hne)]
      rw [minuteSeries_length, show autoPeriod 60000 = some 3600 from by
        norm_num [autoPeriod]]
    rw [hform]
    have hpair : (resampleLast 3600 (minuteSeries 60000)).Pairwise
        fun x y : ℕ × Unit => x.1 < y.1 :=
      resampleLast_pairwise 3600 (by norm_num) _ (minuteSeries_sorted 60000)
    have hbuckets :
        ∀ s ∈ resampleLast 3600 (minuteSeries 60000), s.1 / 3600 < 1000 := by
      intro s hs
      rcases resampleLast_mem 3600 _ s hs with ⟨q, hq, rfl⟩
      rcases List.mem_map.mp hq with ⟨i, hi, rfl⟩
      have hi' : i < 60000 := List.mem_range.mp hi
      rw [Nat.mul_div_cancel_left _ (by norm_num : (0:ℕ) < 3600)]
      rw [Nat.div_lt_iff_lt_mul (by norm_num : (0:ℕ) < 3600)]
      omega
    have hdvd : ∀ s ∈ resampleLast 3600 (minuteSeries 60000),
        3600 ∣ s.1 := by
      intro s hs
      rcases resampleLast_mem 3600 _ s hs with ⟨q, hq, rfl⟩
      exact Dvd.intro _ rfl
    have hmap : ((resampleLast 3600 (minuteSeries 60000)).map
        fun s => s.1 / 3600).Pairwise (· < ·) := by
      rw [List.pairwise_map]
      refine hpair.imp_of_mem fun {a b} ha hb hlt => ?_
      exact Nat.div_lt_div_of_lt_of_dvd (hdvd b hb) hlt
    have := length_le_of_pairwise_lt _ 1000 hmap (by
      intro x hx
      rcases List.mem_map.mp hx with ⟨s, hs, rfl⟩
      exact hbuckets s hs)
    simpa using this

/-- Witness for C7: the ladder at 60000 rows, and the unchanged-series branch
on a concrete 3-row series. -/
theorem resampler_spec_witness :
    autoPeriod 60000 = some 3600 ∧
    get_resampled_data [(0, ()), (60, ()), (120, ())] none =
      [(0, ()), (60, ()), (120, ())] :=
  ⟨(resampler_spec.1 60000).1 (by norm_num),
   resampler_spec.2.1 Unit [(0, ()), (60, ()), (120, ())] (by simp)⟩

/-! ## Summary windows: `get_symbols_summary`, per-symbol metrics,
lines 1143–1161 (C8) -/

/-- Lines 1147–1152: the 24h change uses the fixed offset `iloc[-1440]` when
more than 1440 rows exist, and otherwise is set to the constant 0. -/
def change_24h (close : List ℚ) : ℚ :=
  if 1440 < close.length then
    (close.getD (close.length - 1) 0 - close.getD (close.length - 1440) 0) /
      close.getD (close.length - 1440) 0 * 100
  else 0

/-- Lines 1154–1161: the 7d change uses the fixed offset `iloc[-10080]` when
more than 10080 rows exist, and otherwise falls back to the earliest sample
`iloc[0]`. -/
def change_7d (close : List ℚ) : ℚ :=
  if 10080 < close.length then
    (close.getD (close.length - 1) 0 - close.getD (close.length - 10080) 0) /
      close.getD (close.length - 10080) 0 * 100
  else
    (close.getD (close.length - 1) 0 - close.getD 0 0) / close.getD 0 0 * 100

/-- **C8, counterexample**: on the 2-sample price series `[100, 110]` the
claimed fallback would compute the 24-hour change against the earliest sample
(+10%), but the code returns the constant 0. -/
theorem change_24h_counterexample :
    change_24h [100, 110] = 0 ∧
    (([100, 110] : List ℚ).getD 1 0 - ([100, 110] : List ℚ).getD 0 0) /
        ([100, 110] : List ℚ).getD 0 0 * 100 = 10 ∧
    change_24h [100, 110] ≠
      (([100, 110] : List ℚ).getD 1 0 - ([100, 110] : List ℚ).getD 0 0) /
        ([100, 110] : List ℚ).getD 0 0 * 100 := by
  norm_num [change_24h]

theorem reverse_getD (l : List ℚ) (i : ℕ) (h : i < l.length) :
    l.reverse.getD i 0 = l.getD (l.length - 1 - i) 0 := by
  rw [List.getD_eq_getD_get?, List.getD_eq_getD_get?, List.get?_reverse h]

/-- **C8, amended**: both windows are computed by fixed end-relative sample
offsets (1440 and 10080 rows); on insufficient history the 7-day change falls
back to the earliest available sample, but the 24-hour change falls back to
the constant 0, not to the earliest sample. -/
theorem change_windows_amended (close : List ℚ) :
    (1440 < close.length →
      change_24h close =
        (close.reverse.getD 0 0 - close.reverse.getD 1439 0) /
          close.reverse.getD 1439 0 * 100) ∧
    (close.length ≤ 1440 → change_24h close = 0) ∧
    (10080 < close.length →
      change_7d close =
        (close.reverse.getD 0 0 - close.reverse.getD 10079 0) /
          close.reverse.getD 10079 0 * 100) ∧
    (close.length ≤ 10080 →
      change_7d close =
        (close.reverse.getD 0 0 - close.getD 0 0) / close.getD 0 0 * 100) := by
  refine ⟨fun h => ?_, fun h => ?_, fun h => ?_, fun h => ?_⟩
  · rw [change_24h, if_pos h, reverse_getD close 0 (by omega),
      reverse_getD close 1439 (by omega)]
    have e0 : close.length - 1 - 0 = close.length - 1 := by omega
    have e1 : close.length - 1 - 1439 = close.length - 1440 := by omega
    rw [e0, e1]
  · rw [change_24h, if_neg (by omega)]
  · rw [change_7d, if_pos h, reverse_getD close 0 (by omega),
      reverse_getD close 10079 (by omega)]
    have e0 : close.length - 1 - 0 = close.length - 1 := by omega
    have e1 : close.length - 1 - 10079 = close.length - 10080 := by omega
    rw [e0, e1]
  · rw [change_7d, if_neg (by omega)]
    cases close with
    | nil => simp
    | cons a t =>
      rw [reverse_getD (a :: t) 0 (by simp)]
      have e0 : (a :: t).length - 1 - 0 = (a :: t).length - 1 := by omega
      rw [e0]

/-- Witness for C8 (amended) on a 2-sample series: the 24h change is 0 and the
7d change is computed against the earliest sample. -/
theorem change_windows_amended_witness :
    change_24h [100, 110] = 0 ∧
    change_7d [100, 110] =
      (([100, 110] : List ℚ).reverse.getD 0 0 - ([100, 110] : List ℚ).getD 0 0) /
        ([100, 110] : List ℚ).getD 0 0 * 100 :=
  ⟨(change_windows_amended [100, 110]).2.1 (by norm_num),
   (change_windows_amended [100, 110]).2.2.2 (by norm_num)⟩

/-! ## Summary aggregation: `get_symbols_summary`, lines 1101–1308 (C9) -/

/-- One per-symbol record of `summary_data` (the dict built at lines
1189–1209, restricted to the fields the aggregation reads). `fresh` models
`freshness == 'fresh'`. -/
structure SymRecord where
  symbol : String
  bucket_raw : String
  pair : String
  last_price : ℚ
  position_text : String
  cumulative_return : ℚ
  change_24h : ℚ
  change_7d : ℚ
  fresh : Bool
  consecutive_positive_days : ℕ
deriving DecidableEq

/-- `statistics.median`: the middle element of the sorted data for an odd
count, the mean of the two middle elements for an even count. -/
def pyMedian (l : List ℚ) : ℚ :=
  if l.length % 2 = 1 then
    (l.mergeSort fun a b => decide (a ≤ b)).getD (l.length / 2) 0
  else
    ((l.mergeSort fun a b => decide (a ≤ b)).getD (l.length / 2 - 1) 0 +
      (l.mergeSort fun a b => decide (a ≤ b)).getD (l.length / 2) 0) / 2

/-- Python's `min` over a nonempty list (the aggregation guards the empty
case). -/
def pyMin (l : List ℚ) : ℚ := l.minimum.untop' 0

/-- Python's `max` over a nonempty list. -/
def pyMax (l : List ℚ) : ℚ := l.maximum.unbot' 0

/-- The `stats` block of the summary response (lines 1234–1263 and
1293–1306).  The `round(·, 2)` display rounding is omitted: it is a plain
function of the value it rounds, so it does not affect any ordering
property. -/
structure AggStats where
  total_symbols : ℕ
  fresh_symbols : ℕ
  avg_return : ℚ
  min_return : ℚ
  max_return : ℚ
  median_return : ℚ
  positive_cumulative : ℕ
  negative_cumulative : ℕ
  positive_24h : ℕ
  negative_24h : ℕ
  total_buckets : ℕ
deriving DecidableEq

def aggStats (summary_data : List SymRecord) : AggStats :=
  if summary_data = [] then
    { total_symbols := 0, fresh_symbols := 0, avg_return := 0, min_return := 0,
      max_return := 0, median_return := 0, positive_cumulative := 0,
      negative_cumulative := 0, positive_24h := 0, negative_24h := 0,
      total_buckets := 0 }
  else
    { total_symbols := summary_data.length
      fresh_symbols := summary_data.countP (·.fresh)
      avg_return := (summary_data.map (·.cumulative_return)).sum /
        ((summary_data.map (·.cumulative_return)).length : ℚ)
      min_return := pyMin (summary_data.map (·.cumulative_return))
      max_return := pyMax (summary_data.map (·.cumulative_return))
      median_return := pyMedian (summary_data.map (·.cumulative_return))
      positive_cumulative :=
        (summary_data.map (·.cumulative_return)).countP fun r => decide (0 < r)
      negative_cumulative :=
        (summary_data.map (·.cumulative_return)).countP fun r => decide (r < 0)
      positive_24h :=
        (summary_data.map (·.change_24h)).countP fun c => decide (0 < c)
      negative_24h :=
        (summary_data.map (·.change_24h)).countP fun c => decide (c < 0)
      total_buckets := (summary_data.map (·.bucket_raw)).dedup.length }

/-- The `coin_stats` block (lines 1269–1289): per-coin statistics over the
records whose symbol equals the coin; `none` when no record matches (the
source then omits the coin from the dict). -/
structure CoinStats where
  total_symbols : ℕ
  fresh_symbols : ℕ
  avg_return : ℚ
  min_return : ℚ
  max_return : ℚ
  median_return : ℚ
  positive_cumulative : ℕ
  negative_cumulative : ℕ
  positive_24h : ℕ
  negative_24h : ℕ
  active_positions : ℕ
deriving DecidableEq

/-- Statistics over one coin's records (the body of the loop at lines
1270–1289, applied to `coin_data`). -/
def coinStatsOf (coin_data : List SymRecord) : CoinStats :=
  { total_symbols := coin_data.length
    fresh_symbols := coin_data.countP (·.fresh)
    avg_return := (coin_data.map (·.cumulative_return)).sum /
      ((coin_data.map (·.cumulative_return)).length : ℚ)
    min_return := pyMin (coin_data.map (·.cumulative_return))
    max_return := pyMax (coin_data.map (·.cumulative_return))
    median_return := pyMedian (coin_data.map (·.cumulative_return))
    positive_cumulative :=
      (coin_data.map (·.cumulative_return)).countP fun r => decide (0 < r)
    negative_cumulative :=
      (coin_data.map (·.cumulative_return)).countP fun r => decide (r < 0)
    positive_24h :=
      (coin_data.map (·.change_24h)).countP fun c => decide (0 < c)
    negative_24h :=
      (coin_data.map (·.change_24h)).countP fun c => decide (c < 0)
    active_positions := coin_data.countP fun s => s.position_text != "FLAT" }

def coinStats (summary_data : List SymRecord) (coin : String) :
    Option CoinStats :=
  if (summary_data.filter fun s => s.symbol == coin) = [] then none
  else some (coinStatsOf (summary_data.filter fun s => s.symbol == coin))

structure SummaryResponse where
  symbols : List SymRecord
  stats : AggStats
  coin_stats : List (String × Option CoinStats)
deriving DecidableEq

/-- `get_symbols_summary` (lines 1101–1308): `summary_data` is built by
extending the list with each completed future's result, in `as_completed`
order — the `arrivals` argument lists the per-symbol records in that
completion order.  The response's `symbols` field is `summary_data` itself:
no sort is applied anywhere in this endpoint (contrast `get_bucket_symbols`,
line 842, and `get_all_cumulative_returns`, line 1432, which do sort their
lists before responding). -/
def get_symbols_summary (arrivals : List SymRecord) : SummaryResponse :=
  { symbols := arrivals
    stats := aggStats arrivals
    coin_stats := ["BTC", "ETH", "SOL", "LTC"].map fun c =>
      (c, coinStats arrivals c) }

theorem minimum_perm (l l' : List ℚ) (h : l.Perm l') :
    l.minimum = l'.minimum := by
  apply le_antisymm
  · exact List.le_minimum_of_forall_le fun a ha =>
      List.minimum_le_of_mem' (h.mem_iff.mpr ha)
  · exact List.le_minimum_of_forall_le fun a ha =>
      List.minimum_le_of_mem' (h.mem_iff.mp ha)

theorem maximum_perm (l l' : List ℚ) (h : l.Perm l') :
    l.maximum = l'.maximum := by
  apply le_antisymm
  · exact List.maximum_le_of_forall_le fun a ha =>
      List.le_maximum_of_mem' (h.mem_iff.mp ha)
  · exact List.maximum_le_of_forall_le fun a ha =>
      List.le_maximum_of_mem' (h.mem_iff.mpr ha)

theorem mergeSort_perm_eq (l l' : List ℚ) (h : l.Perm l') :
    (l.mergeSort fun a b => decide (a ≤ b)) =
      (l'.mergeSort fun a b => decide (a ≤ b)) := by
  have hs : ∀ m : List ℚ,
      List.Sorted (· ≤ ·) (m.mergeSort fun a b => decide (a ≤ b)) := by
    intro m
    have := @List.sorted_mergeSort ℚ (fun a b => decide (a ≤ b))
      (fun a b c hab hbc => by
        simp only [decide_eq_true_eq] at *
        exact le_trans hab hbc)
      (fun a b => by
        simp only [Bool.or_eq_true, decide_eq_true_eq]
        exact le_total a b)
      m
    exact this.imp fun hab => of_decide_eq_true hab
  exact List.eq_of_perm_of_sorted
    (((List.mergeSort_perm l _).trans h).trans (List.mergeSort_perm l' _).symm)
    (hs l) (hs l')

theorem pyMedian_perm (l l' : List ℚ) (h : l.Perm l') :
    pyMedian l = pyMedian l' := by
  unfold pyMedian
  rw [mergeSort_perm_eq l l' h, h.length_eq]

theorem pyMin_perm (l l' : List ℚ) (h : l.Perm l') : pyMin l = pyMin l' := by
  unfold pyMin
  rw [minimum_perm l l' h]

theorem pyMax_perm (l l' : List ℚ) (h : l.Perm l') : pyMax l = pyMax l' := by
  unfold pyMax
  rw [maximum_perm l l' h]

theorem aggStats_perm (l l' : List SymRecord) (h : l.Perm l') :
    aggStats l = aggStats l' := by
  have hret : (l.map (·.cumulative_return)).Perm (l'.map (·.cumulative_return)) :=
    h.map _
  have hch : (l.map (·.change_24h)).Perm (l'.map (·.change_24h)) := h.map _
  have hbr : (l.map (·.bucket_raw)).Perm (l'.map (·.bucket_raw)) := h.map _
  unfold aggStats
  by_cases hl : l = []
  · have hl' : l' = [] := by
      subst hl
      exact h.nil_eq.symm
    rw [if_pos hl, if_pos hl']
  · have hl' : l' ≠ [] := by
      intro hh
      subst hh
      exact hl h.symm.nil_eq.symm
    rw [if_neg hl, if_neg hl']
    simp only [AggStats.mk.injEq]
    refine ⟨h.length_eq, h.countP_eq _, ?_, pyMin_perm _ _ hret,
      pyMax_perm _ _ hret, pyMedian_perm _ _ hret, hret.countP_eq _,
      hret.countP_eq _, hch.countP_eq _, hch.countP_eq _, (hbr.dedup).length_eq⟩
    rw [hret.sum_eq, hret.length_eq]

theorem coinStatsOf_perm (l l' : List SymRecord) (h : l.Perm l') :
    coinStatsOf l = coinStatsOf l' := by
  have hret : (l.map (·.cumulative_return)).Perm (l'.map (·.cumulative_return)) :=
    h.map _
  have hch : (l.map (·.change_24h)).Perm (l'.map (·.change_24h)) := h.map _
  unfold coinStatsOf
  simp only [CoinStats.mk.injEq]
  refine ⟨h.length_eq, h.countP_eq _, ?_, pyMin_perm _ _ hret,
    pyMax_perm _ _ hret, pyMedian_perm _ _ hret, hret.countP_eq _,
    hret.countP_eq _, hch.countP_eq _, hch.countP_eq _, h.countP_eq _⟩
  rw [hret.sum_eq, hret.length_eq]

theorem coinStats_perm (l l' : List SymRecord) (h : l.Perm l') (coin : String) :
    coinStats l coin = coinStats l' coin := by
  have hf : (l.filter fun s => s.symbol == coin).Perm
      (l'.filter fun s => s.symbol == coin) := h.filter _
  unfold coinStats
  by_cases hc : (l.filter fun s => s.symbol == coin) = []
  · have hc' : (l'.filter fun s => s.symbol == coin) = [] := by
      rw [hc] at hf
      exact hf.nil_eq.symm
    rw [if_pos hc, if_pos hc']
  · have hc' : (l'.filter fun s => s.symbol == coin) ≠ [] := by
      intro hh
      rw [hh] at hf
      exact hc hf.symm.nil_eq.symm
    rw [if_neg hc, if_neg hc']
    rw [coinStatsOf_perm _ _ hf]

/-- A per-symbol record for ETH. -/
def recETH : SymRecord :=
  { symbol := "ETH", bucket_raw := "bucket1", pair := "USD", last_price := 1,
    position_text := "FLAT", cumulative_return := 1, change_24h := 0,
    change_7d := 0, fresh := true, consecutive_positive_days := 0 }

/-- A per-symbol record for BTC. -/
def recBTC : SymRecord := { recETH with symbol := "BTC" }

/-- **C9, counterexample**: when the parallel per-symbol computations complete
in the order ETH, BTC, the endpoint's per-symbol list is `[ETH, BTC]` — it is
not sorted by symbol name, refuting the claim that the final list is sorted
regardless of completion order. -/
theorem summary_order_counterexample :
    ¬ List.Sorted (· ≤ ·)
        ((get_symbols_summary [recETH, recBTC]).symbols.map (·.symbol)) := by
  intro h
  have hmap : (get_symbols_summary [recETH, recBTC]).symbols.map (·.symbol) =
      ["ETH", "BTC"] := rfl
  rw [hmap] at h
  have hlt : ("BTC" : String) < "ETH" := by
    rw [String.lt_iff_toList_lt]
    decide
  exact (List.rel_of_sorted_cons h "BTC" (by simp)) hlt

/-- **C9, amended**: the summary endpoint applies no sort: the `symbols` field
of the response preserves the completion order of the parallel per-symbol
computations exactly, while the aggregate and per-coin grouped statistics are
independent of that completion order. -/
theorem summary_completion_order (arrivals arrivals' : List SymRecord)
    (hperm : arrivals.Perm arrivals') :
    (get_symbols_summary arrivals).symbols = arrivals ∧
    (get_symbols_summary arrivals).stats = (get_symbols_summary arrivals').stats ∧
    (get_symbols_summary arrivals).coin_stats =
      (get_symbols_summary arrivals').coin_stats := by
  refine ⟨rfl, aggStats_perm _ _ hperm, ?_⟩
  unfold get_symbols_summary
  simp only [List.map_inj_left, Prod.mk.injEq]
  intro c _
  exact ⟨trivial, coinStats_perm _ _ hperm c⟩

/-- Witness for C9 (amended): two completion orders of the same two records
give the same statistics, and each response's list is exactly its completion
order. -/
theorem summary_completion_order_witness :
    (get_symbols_summary [recETH, recBTC]).symbols = [recETH, recBTC] ∧
    (get_symbols_summary [recETH, recBTC]).stats =
      (get_symbols_summary [recBTC, recETH]).stats ∧
    (get_symbols_summary [recETH, recBTC]).coin_stats =
      (get_symbols_summary [recBTC, recETH]).coin_stats :=
  summary_completion_order [recETH, recBTC] [recBTC, recETH]
    (List.Perm.swap recBTC recETH [])

/-! ## Concurrency models: `get_cache_key_lock` and the per-key refresh (C2)

The lock-protected code is embedded as interleaving transition systems: a
state records each thread's program counter together with the shared
variables; a step nondeterministically advances one thread by one atomic
action (one dict/lock operation, atomic under CPython's GIL); the properties
are established for every reachable state by exhaustive enumeration of the
finite reachable state space. -/

/-- Bounded breadth-first closure of `succs` starting from `acc`; once no new
state appears, the accumulated list is closed under `succs`. -/
def explore {σ : Type} [DecidableEq σ] (succs : σ → List σ) :
    ℕ → List σ → List σ
  | 0, acc => acc
  | n + 1, acc =>
      let fresh := ((acc.flatMap succs).filter fun t => decide (t ∉ acc)).dedup
      if fresh.isEmpty then acc else explore succs n (acc ++ fresh)

/-- State of two threads running `get_cache_key_lock` (lines 67–73)
concurrently for the same, initially unknown, cache key.  `key_locks` is
`CACHE_KEY_LOCKS[cache_key]` (`some i` once a lock object with identity `i`
has been published), `cache_lock` tells whether the global `CACHE_LOCK` is
held, and `next_lock_id` numbers the `threading.Lock()` objects created, so
that "the same lock instance" is expressible.  Program counters: 0 = about to
run the unguarded membership test of line 69; 1 = about to acquire
`CACHE_LOCK` (line 70); 2 = holding `CACHE_LOCK`, about to re-check and
possibly create (lines 71–72); 3 = about to release `CACHE_LOCK`; 4 = about
to read and return `CACHE_KEY_LOCKS[cache_key]` (line 73); 5 = returned. -/
structure LockCreateState where
  pc1 : ℕ
  pc2 : ℕ
  ret1 : Option ℕ
  ret2 : Option ℕ
  key_locks : Option ℕ
  cache_lock : Bool
  next_lock_id : ℕ
deriving DecidableEq

def lcStep1 (s : LockCreateState) : Option LockCreateState :=
  match s.pc1 with
  | 0 => some { s with pc1 := if s.key_locks = none then 1 else 4 }
  | 1 => if s.cache_lock then none else some { s with cache_lock := true, pc1 := 2 }
  | 2 =>
      if s.key_locks = none then
        some { s with key_locks := some s.next_lock_id,
                      next_lock_id := s.next_lock_id + 1, pc1 := 3 }
      else some { s with pc1 := 3 }
  | 3 => some { s with cache_lock := false, pc1 := 4 }
  | 4 => some { s with ret1 := s.key_locks, pc1 := 5 }
  | _ => none

def lcStep2 (s : LockCreateState) : Option LockCreateState :=
  match s.pc2 with
  | 0 => some { s with pc2 := if s.key_locks = none then 1 else 4 }
  | 1 => if s.cache_lock then none else some { s with cache_lock := true, pc2 := 2 }
  | 2 =>
      if s.key_locks = none then
        some { s with key_locks := some s.next_lock_id,
                      next_lock_id := s.next_lock_id + 1, pc2 := 3 }
      else some { s with pc2 := 3 }
  | 3 => some { s with cache_lock := false, pc2 := 4 }
  | 4 => some { s with ret2 := s.key_locks, pc2 := 5 }
  | _ => none

def lcSuccs (s : LockCreateState) : List LockCreateState :=
  (lcStep1 s).toList ++ (lcStep2 s).toList

def lcInit : LockCreateState :=
  { pc1 := 0, pc2 := 0, ret1 := none, ret2 := none, key_locks := none,
    cache_lock := false, next_lock_id := 0 }

/-- One interleaving step: some thread advances. -/
def LCStep (s t : LockCreateState) : Prop := t ∈ lcSuccs s

/-- Reachability from the initial state along any interleaving. -/
def LCReachable (s : LockCreateState) : Prop :=
  Relation.ReflTransGen LCStep lcInit s

/-- The explored state list of the lock-creation model. -/
def lcReach : List LockCreateState := explore lcSuccs 64 [lcInit]

theorem lcReach_closed : ∀ s ∈ lcReach, ∀ t ∈ lcSuccs s, t ∈ lcReach := by decide

theorem lcReach_complete (s : LockCreateState) (h : LCReachable s) :
    s ∈ lcReach := by
  induction h with
  | refl => decide
  | tail _ hstep ih => exact lcReach_closed _ ih _ hstep

theorem lcInv : ∀ s ∈ lcReach,
    s.next_lock_id ≤ 1 ∧
    (s.pc1 = 5 → s.pc2 = 5 → s.ret1 = s.ret2 ∧ s.ret1 ≠ none) := by decide

/-- State of two refresher threads (the cached-key branch of
`get_bucket_data`, lines 976–985, run under the per-key lock acquired at line
966) plus one reader thread (the unlocked dict read of line 988 / line 1075),
all for the same cache key.  Both refreshers observed the same source mtime 1,
strictly newer than the stored mtime 0.  `entry` is `DATA_CACHE[cache_key]`
as an opaque snapshot identity: 0 is the pre-reload dataframe, 1 the
dataframe produced by the reload; a CPython dict assignment installs the new
dataframe object in one atomic store, so a reader sees one of the two objects
whole — the model has no mixed value.  Refresher counters: 0 = about to
acquire the per-key lock; 1 = about to test
`current_mtime > LAST_MODIFIED[cache_key]` (line 979); 2 = about to call
`load_csv_data_from_path` (line 980); 3 = loader returned (a reload is in
flight at counters 2–3), about to commit entry, stored mtime and version
(lines 982–985); 4 = about to release the lock; 5 = done.  `loads` counts
loader invocations. -/
structure RefreshState where
  pcA : ℕ
  pcB : ℕ
  pcR : ℕ
  key_lock : Bool
  last_modified : ℕ
  entry : ℕ
  version : ℕ
  loads : ℕ
  reader_saw : Option ℕ
deriving DecidableEq

def rfStepA (s : RefreshState) : Option RefreshState :=
  match s.pcA with
  | 0 => if s.key_lock then none else some { s with key_lock := true, pcA := 1 }
  | 1 => some { s with pcA := if 1 > s.last_modified then 2 else 4 }
  | 2 => some { s with loads := s.loads + 1, pcA := 3 }
  | 3 => some { s with entry := 1, last_modified := 1,
                       version := s.version + 1, pcA := 4 }
  | 4 => some { s with key_lock := false, pcA := 5 }
  | _ => none

def rfStepB (s : RefreshState) : Option RefreshState :=
  match s.pcB with
  | 0 => if s.key_lock then none else some { s with key_lock := true, pcB := 1 }
  | 1 => some { s with pcB := if 1 > s.last_modified then 2 else 4 }
  | 2 => some { s with loads := s.loads + 1, pcB := 3 }
  | 3 => some { s with entry := 1, last_modified := 1,
                       version := s.version + 1, pcB := 4 }
  | 4 => some { s with key_lock := false, pcB := 5 }
  | _ => none

def rfStepR (s : RefreshState) : Option RefreshState :=
  match s.pcR with
  | 0 => some { s with reader_saw := some s.entry, pcR := 1 }
  | _ => none

def rfSuccs (s : RefreshState) : List RefreshState :=
  (rfStepA s).toList ++ (rfStepB s).toList ++ (rfStepR s).toList

def rfInit : RefreshState :=
  { pcA := 0, pcB := 0, pcR := 0, key_lock := false, last_modified := 0,
    entry := 0, version := 0, loads := 0, reader_saw := none }

def RFStep (s t : RefreshState) : Prop := t ∈ rfSuccs s

def RFReachable (s : RefreshState) : Prop :=
  Relation.ReflTransGen RFStep rfInit s

def rfReach : List RefreshState := explore rfSuccs 64 [rfInit]

theorem rfReach_closed : ∀ s ∈ rfReach, ∀ t ∈ rfSuccs s, t ∈ rfReach := by decide

theorem rfReach_complete (s : RefreshState) (h : RFReachable s) :
    s ∈ rfReach := by
  induction h with
  | refl => decide
  | tail _ hstep ih => exact rfReach_closed _ ih _ hstep

theorem rfInv : ∀ s ∈ rfReach,
    (¬ (1 ≤ s.pcA ∧ s.pcA ≤ 4 ∧ 1 ≤ s.pcB ∧ s.pcB ≤ 4)) ∧
    (s.pcA = 5 → s.pcB = 5 → s.loads = 1 ∧ s.version = 1 ∧
      s.last_modified = 1 ∧ s.entry = 1) ∧
    (s.reader_saw = none ∨ s.reader_saw = some 0 ∨ s.reader_saw = some 1) := by
  decide

/-- **C2**: along every interleaving, (a) two concurrent first-time callers of
`get_cache_key_lock` on the same unknown key create at most one lock object
and both return the same lock instance; (b) two concurrent refreshers of the
same key are never simultaneously inside the per-key critical section, so at
most one reload is ever in flight; (c) when both refreshers saw the same
newer mtime, exactly one reload is performed and the version increments by
exactly one; and (d) a concurrent reader observes either the complete
pre-reload entry or the complete post-reload entry, never a mixture. -/
theorem cache_key_concurrency (s : LockCreateState) (t : RefreshState)
    (hs : LCReachable s) (ht : RFReachable t) :
    (s.next_lock_id ≤ 1 ∧
      (s.pc1 = 5 → s.pc2 = 5 → s.ret1 = s.ret2 ∧ s.ret1 ≠ none)) ∧
    (¬ (1 ≤ t.pcA ∧ t.pcA ≤ 4 ∧ 1 ≤ t.pcB ∧ t.pcB ≤ 4)) ∧
    (t.pcA = 5 → t.pcB = 5 → t.loads = 1 ∧ t.version = rfInit.version + 1) ∧
    (t.reader_saw = none ∨ t.reader_saw = some 0 ∨ t.reader_saw = some 1) := by
  have h1 := lcInv s (lcReach_complete s hs)
  have h2 := rfInv t (rfReach_complete t ht)
  exact ⟨h1, h2.1, fun ha hb => ⟨(h2.2.1 ha hb).1, (h2.2.1 ha hb).2.1⟩, h2.2.2⟩

/-- Witness for C2 at the initial states of both models. -/
theorem cache_key_concurrency_witness :
    (lcInit.next_lock_id ≤ 1 ∧
      (lcInit.pc1 = 5 → lcInit.pc2 = 5 →
        lcInit.ret1 = lcInit.ret2 ∧ lcInit.ret1 ≠ none)) ∧
    (¬ (1 ≤ rfInit.pcA ∧ rfInit.pcA ≤ 4 ∧ 1 ≤ rfInit.pcB ∧ rfInit.pcB ≤ 4)) ∧
    (rfInit.pcA = 5 → rfInit.pcB = 5 →
      rfInit.loads = 1 ∧ rfInit.version = rfInit.version + 1) ∧
    (rfInit.reader_saw = none ∨ rfInit.reader_saw = some 0 ∨
      rfInit.reader_saw = some 1) :=
  cache_key_concurrency lcInit rfInit Relation.ReflTransGen.refl
    Relation.ReflTransGen.refl

end WebApp
